import Mathlib

set_option maxRecDepth 16384

/-!
Shallow embedding of the reconciliation engine of `deployer/kubernetes_deployer.py`
(with the `Challenge` record from `deployer/scanner.py`), together with theorems
settling the frozen claims about it.

Modelling conventions:
* Kubernetes API state is an explicit `ClusterState` record threaded through the
  functions; every Kubernetes mutation the script issues is recorded as an `Event`.
* The docker registry inventory (`sudo docker images --format
  '\x7b\x7b.Repository\x7d\x7d__:__\x7b\x7b.Digest\x7d\x7d'`) is modelled at the external
  boundary as a list of `(repository, digest)` string pairs, one per output line.
* Python exceptions that escape the program are modelled with `Option PyError`
  (`none` = the run finished, `some e` = the run aborted with exception `e`);
  events produced before the exception are kept.
* Interactive `input(...)` answers are supplied up front, one per prompt site.
* `os.path.exists(f"…/Dockerfile")` is an external filesystem fact, carried as a
  boolean field of the challenge record.
* Cluster API calls are modelled as succeeding (the script's per-resource
  `try/except` only matters for transient API failures, which no claim exercises).
-/

namespace KubeDeployer

/-- The constant REGISTRY from `kubernetes_deployer.py`. -/
def REGISTRY : String := "registry.local:5000/"

/-- The constant DEFAULT_INTERNAL_PORT. -/
def DEFAULT_INTERNAL_PORT : Nat := 5000

/-- The management label key used in every `label_selector` of the script. -/
def MANAGED_LABEL_KEY : String := "securitylab.disi.unitn.it/managed-by"

/-- The management label value. -/
def MANAGED_LABEL_VALUE : String := "true"

/-- The fixed namespace `"ethical-hacking"` used by every API call. -/
def TARGET_NAMESPACE : String := "ethical-hacking"

/-- A challenge record (`scanner.Challenge`): `name`, `path`, `port`, `category`,
`subcategory` as parsed from the folder hierarchy, plus the external filesystem
fact `os.path.exists (path ++ "/Dockerfile")` that `main` and
`build_and_push_images` re-check. -/
structure Challenge where
  name : String
  path : String
  port : Nat
  category : String
  subcategory : String
  hasDockerfile : Bool
deriving DecidableEq, Repr

/-- From scanner.py line 93: `Challenge.id = f"{category}-{name}"`. -/
def Challenge.id (c : Challenge) : String := c.category ++ "-" ++ c.name

/-- A container entry of a deployment pod template: `name`, `image`,
`containerPort` leaves of the dict literal in `main`. -/
structure ContainerSpec where
  name : String
  image : String
  containerPort : Nat
deriving DecidableEq, Repr

/-- The Deployment dict synthesized in `main` (lines 214-247), flattened to its
semantic leaves. `metadataLabels` is the deployment's own `metadata.labels`
(the dict sets none); the management label appears only in `templateLabels`. -/
structure DeploymentSpec where
  name : String
  ns : String
  metadataLabels : List (String × String)
  replicas : Nat
  selectorMatchChallenge : String
  templateLabels : List (String × String)
  containers : List ContainerSpec
  restartPolicy : String
deriving DecidableEq, Repr

/-- The HorizontalPodAutoscaler dict in `main` (lines 261-281). -/
structure HpaSpec where
  name : String
  ns : String
  metadataLabels : List (String × String)
  scaleTargetName : String
  minReplicas : Nat
  maxReplicas : Nat
  targetCPUUtilizationPercentage : Nat
deriving DecidableEq, Repr

/-- One entry of a service's `ports` list. -/
structure ServicePort where
  protocol : String
  port : Nat
  targetPort : Nat
  nodePort : Nat
deriving DecidableEq, Repr

/-- The Service dict in `main` (lines 294-319). -/
structure ServiceSpec where
  name : String
  ns : String
  metadataLabels : List (String × String)
  type : String
  externalTrafficPolicy : String
  selectorChallenge : String
  ports : List ServicePort
deriving DecidableEq, Repr

/-- Deployment synthesis for one challenge (`main`, lines 214-247). -/
def mkDeployment (c : Challenge) : DeploymentSpec :=
  { name := c.id
    ns := TARGET_NAMESPACE
    metadataLabels := []
    replicas := 1
    selectorMatchChallenge := c.id
    templateLabels := [(MANAGED_LABEL_KEY, MANAGED_LABEL_VALUE), ("challenge", c.id)]
    containers := [{ name := c.id, image := REGISTRY ++ c.id,
                     containerPort := DEFAULT_INTERNAL_PORT }]
    restartPolicy := "Always" }

/-- HorizontalPodAutoscaler synthesis for one challenge (`main`, lines 261-281). -/
def mkHpa (c : Challenge) : HpaSpec :=
  { name := c.id
    ns := TARGET_NAMESPACE
    metadataLabels := [(MANAGED_LABEL_KEY, MANAGED_LABEL_VALUE)]
    scaleTargetName := c.id
    minReplicas := 1
    maxReplicas := 10
    targetCPUUtilizationPercentage := 80 }

/-- Service synthesis for one challenge (`main`, lines 294-319). -/
def mkService (c : Challenge) : ServiceSpec :=
  { name := c.id
    ns := TARGET_NAMESPACE
    metadataLabels := [(MANAGED_LABEL_KEY, MANAGED_LABEL_VALUE)]
    type := "LoadBalancer"
    externalTrafficPolicy := "Local"
    selectorChallenge := c.id
    ports := [{ protocol := "TCP", port := c.port,
                targetPort := DEFAULT_INTERNAL_PORT, nodePort := c.port }] }

/-- An observed cluster object of one of the three managed kinds:
its name and its `metadata.labels`. -/
structure KObj where
  name : String
  labels : List (String × String)
deriving DecidableEq, Repr

/-- Whether a cluster object matches the label selector
`securitylab.disi.unitn.it/managed-by=true`. -/
def KObj.managed (o : KObj) : Bool :=
  o.labels.lookup MANAGED_LABEL_KEY == some MANAGED_LABEL_VALUE

/-- An observed pod: name, labels, and its container images. The first container
is a separate field because Kubernetes guarantees at least one container per pod
and the script reads `pod.spec.containers[0]`. -/
structure Pod where
  name : String
  labels : List (String × String)
  firstContainerImage : String
  otherContainerImages : List String
deriving DecidableEq, Repr

/-- Whether a pod matches the managed-by label selector. -/
def Pod.managed (p : Pod) : Bool :=
  p.labels.lookup MANAGED_LABEL_KEY == some MANAGED_LABEL_VALUE

/-- The observable cluster state in the fixed namespace: the four resource
collections the script lists, mutates or deletes. -/
structure ClusterState where
  deployments : List KObj
  services : List KObj
  hpas : List KObj
  pods : List Pod
deriving DecidableEq, Repr

/-- Resource kinds handled by the script. -/
inductive Kind
  | deployment
  | service
  | hpa
  | pod
deriving DecidableEq, Repr

/-- One observable action of a run: docker build/push of an image tag, a
confirmation prompt listing the names of one batch, or a Kubernetes mutation
call (create / replace / delete) on a named resource of some kind. -/
inductive Event
  | build (tag : String)
  | push (tag : String)
  | prompt (k : Kind) (names : List String)
  | create (k : Kind) (name : String)
  | replace (k : Kind) (name : String)
  | delete (k : Kind) (name : String)
deriving DecidableEq, Repr

/-- Is this event a Kubernetes mutation call (create, replace or delete)? -/
def Event.isMutation : Event → Bool
  | .create _ _ => true
  | .replace _ _ => true
  | .delete _ _ => true
  | _ => false

/-- Is this event a create-or-update (create or replace) call? -/
def Event.isCreateOrUpdate : Event → Bool
  | .create _ _ => true
  | .replace _ _ => true
  | _ => false

/-- Is this event a replace (update) call? -/
def Event.isReplace : Event → Bool
  | .replace _ _ => true
  | _ => false

/-- Is this event a deletion of a Deployment, Service or Autoscaler? -/
def Event.isResourceDelete : Event → Bool
  | .delete .pod _ => false
  | .delete _ _ => true
  | _ => false

/-- Is this event a pod eviction (restart)? -/
def Event.isPodDelete : Event → Bool
  | .delete .pod _ => true
  | _ => false

/-- A Python exception escaping the run. -/
inductive PyError
  | unboundLocalError
  | attributeError
deriving DecidableEq, Repr

/-- Python's `str.lower`, modelled per character (the script only compares the
result against the ASCII string `"y"`). -/
def pyLower (s : String) : String := ⟨s.data.map Char.toLower⟩

/-- Python's `str.startswith`, modelled structurally over the character
lists. -/
def strStartsWith (s pre : String) : Bool := pre.data.isPrefixOf s.data

/-- A synthesized resource dict, as passed to `create_or_update_resource`. -/
inductive Resource
  | deployment (d : DeploymentSpec)
  | service (s : ServiceSpec)
  | hpa (h : HpaSpec)
deriving DecidableEq, Repr

/-- The `metadata.name` of a synthesized resource. -/
def Resource.name : Resource → String
  | .deployment d => d.name
  | .service s => s.name
  | .hpa h => h.name

/-- The kind tag of a synthesized resource. -/
def Resource.toKind : Resource → Kind
  | .deployment _ => .deployment
  | .service _ => .service
  | .hpa _ => .hpa

/-- Model of `create_or_update_deployment`: read, then replace if present, create
otherwise.  The stored cluster object keeps the spec's `metadata.labels`. -/
def create_or_update_deployment (st : ClusterState) (d : DeploymentSpec) :
    List Event × ClusterState :=
  if st.deployments.any (fun o => o.name == d.name) then
    ([.replace .deployment d.name],
     { st with deployments := st.deployments.map fun o =>
         if o.name == d.name then { name := d.name, labels := d.metadataLabels } else o })
  else
    ([.create .deployment d.name],
     { st with deployments :=
         st.deployments ++ [{ name := d.name, labels := d.metadataLabels }] })

/-- Model of `create_or_update_service`. -/
def create_or_update_service (st : ClusterState) (s : ServiceSpec) :
    List Event × ClusterState :=
  if st.services.any (fun o => o.name == s.name) then
    ([.replace .service s.name],
     { st with services := st.services.map fun o =>
         if o.name == s.name then { name := s.name, labels := s.metadataLabels } else o })
  else
    ([.create .service s.name],
     { st with services :=
         st.services ++ [{ name := s.name, labels := s.metadataLabels }] })

/-- Model of `create_or_update_horizontal_pod_autoscaler`. -/
def create_or_update_hpa (st : ClusterState) (h : HpaSpec) :
    List Event × ClusterState :=
  if st.hpas.any (fun o => o.name == h.name) then
    ([.replace .hpa h.name],
     { st with hpas := st.hpas.map fun o =>
         if o.name == h.name then { name := h.name, labels := h.metadataLabels } else o })
  else
    ([.create .hpa h.name],
     { st with hpas := st.hpas ++ [{ name := h.name, labels := h.metadataLabels }] })

/-- Model of `create_or_update_resource`: dispatch on the resource kind. -/
def create_or_update_resource (st : ClusterState) : Resource → List Event × ClusterState
  | .deployment d => create_or_update_deployment st d
  | .service s => create_or_update_service st s
  | .hpa h => create_or_update_hpa st h

/-- The managed pods whose first container image is in `images`
(`update_pods` lines 90-94: `pod.spec.containers[0].image in images`). -/
def selectedPods (pods : List Pod) (images : List String) : List Pod :=
  (pods.filter Pod.managed).filter (fun p => images.contains p.firstContainerImage)

/-- The `pods_to_delete` list computed by `update_pods`. -/
def pods_to_delete (pods : List Pod) (images : List String) : List String :=
  (selectedPods pods images).map Pod.name

/-- Model of `update_pods`: prompt once for the non-empty batch, evict exactly when the
lowered answer is `"y"`.  Sequentially deleting every name of the batch equals
filtering the batch's names out. -/
def update_pods (st : ClusterState) (images : List String) (answer : String) :
    List Event × ClusterState :=
  let batch := pods_to_delete st.pods images
  if batch.length > 0 then
    if pyLower answer == "y" then
      (Event.prompt .pod batch :: batch.map (Event.delete .pod),
       { st with pods := st.pods.filter (fun p => !batch.contains p.name) })
    else ([Event.prompt .pod batch], st)
  else ([], st)

/-- The `images_repo_digests` loop (`build_and_push_images` lines 113-119):
first digest wins, restricted to repositories with the `REGISTRY` prefix.
A blank docker output line is the pair `("", "")`, which the prefix test drops
just as the source's blank-line `continue` does. -/
def registryDigestsLoop (acc : List (String × String)) :
    List (String × String) → List (String × String)
  | [] => acc
  | (r, d) :: rest =>
      if strStartsWith r REGISTRY && (acc.lookup r).isNone then
        registryDigestsLoop (acc ++ [(r, d)]) rest
      else registryDigestsLoop acc rest

/-- The repository → digest map snapshot taken before building. -/
def registryDigestsMap (lines : List (String × String)) : List (String × String) :=
  registryDigestsLoop [] lines

/-- The `updated_images` loop (`build_and_push_images` lines 156-163): an
after-snapshot line is collected when its repository has the registry prefix,
appears in the before map, and both digests are non-empty and different. -/
def updated_images (beforeMap : List (String × String)) :
    List (String × String) → List String
  | [] => []
  | (r, d) :: rest =>
      if strStartsWith r REGISTRY then
        match beforeMap.lookup r with
        | some d0 =>
            if d0 != d && d != "" && d0 != "" then r :: updated_images beforeMap rest
            else updated_images beforeMap rest
        | none => updated_images beforeMap rest
      else updated_images beforeMap rest

/-- The command-collection loop of `build_and_push_images` (lines 126-142).
`images_repositories` is `none` when the Python local was never assigned
(`ignore_existing` true); referencing it then raises `UnboundLocalError`.
Returns the build tags and push tags in order. -/
def collectCommands (images_repositories : Option (List String)) :
    List Challenge → Except PyError (List String × List String)
  | [] => .ok ([], [])
  | c :: cs =>
      if c.hasDockerfile then
        match images_repositories with
        | none => .error .unboundLocalError
        | some repos =>
            if repos.contains (REGISTRY ++ c.id) then collectCommands images_repositories cs
            else
              match collectCommands images_repositories cs with
              | .error e => .error e
              | .ok (bs, ps) => .ok ((REGISTRY ++ c.id) :: bs, (REGISTRY ++ c.id) :: ps)
      else collectCommands images_repositories cs

/-- Result of one phase or of a whole run: the events issued, the final cluster
state, and the exception that escaped, if any. -/
structure RunResult where
  events : List Event
  state : ClusterState
  error : Option PyError
deriving DecidableEq, Repr

/-- Model of `build_and_push_images`: snapshot before, build and push every challenge
with a Dockerfile, snapshot after, and hand the changed-image set to
`update_pods`. -/
def build_and_push_images (st : ClusterState) (challenges : List Challenge)
    (ignore_existing : Bool) (before after : List (String × String))
    (answerPods : String) : RunResult :=
  let images_repo_digests := registryDigestsMap before
  let images_repositories : Option (List String) :=
    if ignore_existing then none else some []
  match collectCommands images_repositories challenges with
  | .error e => { events := [], state := st, error := some e }
  | .ok (buildTags, pushTags) =>
      let evs := buildTags.map Event.build ++ pushTags.map Event.push
      let updated := updated_images images_repo_digests after
      if updated.length > 0 then
        let u := update_pods st updated answerPods
        { events := evs ++ u.1, state := u.2, error := none }
      else { events := evs, state := st, error := none }

/-- Result of the per-challenge create/update loop of `main` (lines 206-329):
events, resulting state, and the three `deployed_*` lists. -/
structure CreateLoopResult where
  events : List Event
  state : ClusterState
  deployed_deployments : List Challenge
  deployed_hpas : List Challenge
  deployed_services : List Challenge
deriving DecidableEq, Repr

/-- The per-challenge create/update loop of `main`: skip challenges without a
Dockerfile; create-or-update the Deployment, then the autoscaler — but only
under the literal condition `1 + 1 == 1` from line 260 — then the Service. -/
def createLoop : List Challenge → ClusterState → CreateLoopResult
  | [], st =>
      { events := [], state := st, deployed_deployments := []
        deployed_hpas := [], deployed_services := [] }
  | c :: cs, st =>
      if c.hasDockerfile then
        let u1 := create_or_update_resource st (.deployment (mkDeployment c))
        let u2 : List Event × ClusterState × Bool :=
          if 1 + 1 == 1 then
            let u := create_or_update_resource u1.2 (.hpa (mkHpa c))
            (u.1, u.2, true)
          else ([], u1.2, false)
        let u3 := create_or_update_resource u2.2.1 (.service (mkService c))
        let r := createLoop cs u3.2
        { events := u1.1 ++ u2.1 ++ u3.1 ++ r.events
          state := r.state
          deployed_deployments := c :: r.deployed_deployments
          deployed_hpas := (if u2.2.2 then [c] else []) ++ r.deployed_hpas
          deployed_services := c :: r.deployed_services }
      else createLoop cs st

/-- A `*_to_delete` batch of `main`: the listed cluster names whose name is not
among the deployed challenge ids.  No label selector is applied. -/
def toDeleteBatch (clusterNames deployedIds : List String) : List String :=
  clusterNames.filter (fun n => !deployedIds.contains n)

/-- The prompt-and-delete pattern of `main` (lines 338-343 and 352-357): one
prompt when the batch is non-empty; the deletions run exactly when the lowered
answer is `"y"`.  Returns the events and the names actually deleted. -/
def confirmAndDelete (k : Kind) (batch : List String) (answer : String) :
    List Event × List String :=
  if batch.length > 0 then
    if pyLower answer == "y" then
      (Event.prompt k batch :: batch.map (Event.delete k), batch)
    else ([Event.prompt k batch], [])
  else ([], [])

/-- The autoscaler deletion pass of `main` (lines 365-370): the delete is
issued on `core_v1` (a `CoreV1Api` handle), which — in the kubernetes Python
client — has no `delete_namespaced_horizontal_pod_autoscaler` attribute, so on
an approved non-empty batch the first loop iteration raises `AttributeError`
before any deletion succeeds. -/
def hpaDeletionPass (batch : List String) (answer : String) :
    List Event × Option PyError :=
  if batch.length > 0 then
    if pyLower answer == "y" then
      ([Event.prompt .hpa batch], some .attributeError)
    else ([Event.prompt .hpa batch], none)
  else ([], none)

/-- The four interactive answers a run may consume, one per prompt site. -/
structure Answers where
  deployments : String
  services : String
  hpas : String
  pods : String
deriving DecidableEq, Repr

/-- Result of the reconciliation part of `main`, with the three deletion
batches it computed. -/
structure ReconcileResult where
  events : List Event
  state : ClusterState
  toDeleteDeployments : List String
  toDeleteServices : List String
  toDeleteHpas : List String
  error : Option PyError
deriving DecidableEq, Repr

/-- Everything of `main` after the optional build phase: the create/update loop followed by
the three deletion passes (deployments, then services, then autoscalers), each
listing the namespace without any label selector. -/
def reconcile (challenges : List Challenge) (ans : Answers) (st : ClusterState) :
    ReconcileResult :=
  let r := createLoop challenges st
  let stC := r.state
  let batchD := toDeleteBatch (stC.deployments.map KObj.name)
    (r.deployed_deployments.map Challenge.id)
  let uD := confirmAndDelete .deployment batchD ans.deployments
  let remD := stC.deployments.filter (fun o => !uD.2.contains o.name)
  let stD := { stC with deployments := remD }
  let batchS := toDeleteBatch (stD.services.map KObj.name)
    (r.deployed_services.map Challenge.id)
  let uS := confirmAndDelete .service batchS ans.services
  let remS := stD.services.filter (fun o => !uS.2.contains o.name)
  let stS := { stD with services := remS }
  let batchH := toDeleteBatch (stS.hpas.map KObj.name)
    (r.deployed_hpas.map Challenge.id)
  let uH := hpaDeletionPass batchH ans.hpas
  { events := r.events ++ (uD.1 ++ uS.1 ++ uH.1)
    state := stS
    toDeleteDeployments := batchD
    toDeleteServices := batchS
    toDeleteHpas := batchH
    error := uH.2 }

/-- Model of `main`: optional build-and-push phase (whose exception aborts the run),
then the reconciliation passes. -/
def main (challenges : List Challenge) (build_images ignore_existing : Bool)
    (before after : List (String × String)) (ans : Answers) (st : ClusterState) :
    RunResult :=
  if build_images then
    let b := build_and_push_images st challenges ignore_existing before after ans.pods
    match b.error with
    | some e => { events := b.events, state := b.state, error := some e }
    | none =>
        let r := reconcile challenges ans b.state
        { events := b.events ++ r.events, state := r.state, error := r.error }
  else
    let r := reconcile challenges ans st
    { events := r.events, state := r.state, error := r.error }

/-- Remove the named objects from a collection (sequentially deleting each name
of the list equals one filter over the whole list). -/
def removeNamed (l : List KObj) (names : List String) : List KObj :=
  l.filter (fun o => !names.contains o.name)

/-- Model of `clean_cluster`: delete every Service, then every Deployment, matching the
managed-by label selector; autoscalers and pods are not touched. -/
def clean_cluster (st : ClusterState) : List Event × ClusterState :=
  let svcNames := (st.services.filter KObj.managed).map KObj.name
  let st1 := { st with services := removeNamed st.services svcNames }
  let depNames := (st1.deployments.filter KObj.managed).map KObj.name
  let st2 := { st1 with deployments := removeNamed st1.deployments depNames }
  (svcNames.map (Event.delete .service) ++ depNames.map (Event.delete .deployment), st2)

/-- Is this event a create or replace of an autoscaler? -/
def Event.isHpaCreateOrUpdate : Event → Bool
  | .create .hpa _ => true
  | .replace .hpa _ => true
  | _ => false

/-- Is this event a deletion of an autoscaler? -/
def Event.isHpaDelete : Event → Bool
  | .delete .hpa _ => true
  | _ => false

/-- Number of create-or-update calls of kind `k` for the resource name `n` in a
trace. -/
def countCU (k : Kind) (n : String) (evs : List Event) : Nat :=
  (evs.filter (fun e => e == Event.create k n || e == Event.replace k n)).length

/-- Trace-order predicate: `precedes early late evs` holds when no `early`-event occurs strictly after
a `late`-event: every `early` action of the trace precedes every `late`
action. -/
def precedes (early late : Event → Bool) : List Event → Bool
  | [] => true
  | e :: rest =>
      (if late e then rest.all (fun x => !early x) else true) && precedes early late rest

/-- A sample challenge carrying a Dockerfile; its id is `web-c`. -/
def sampleChallenge : Challenge :=
  { name := "c", path := "/challenges/01_web/1_x/01_c", port := 10101
    category := "web", subcategory := "x", hasDockerfile := true }

/-- The empty cluster. -/
def emptyCluster : ClusterState :=
  { deployments := [], services := [], hpas := [], pods := [] }

/-- Interactive answers declining every prompt. -/
def allNoAnswers : Answers :=
  { deployments := "n", services := "n", hpas := "n", pods := "n" }

/-- A cluster holding a hand-created (unlabeled) deployment `intruder` and a
managed autoscaler named after the desired workload `web-c`. -/
def mixedCluster : ClusterState :=
  { deployments := [{ name := "intruder", labels := [] }]
    services := []
    hpas := [{ name := "web-c", labels := [(MANAGED_LABEL_KEY, MANAGED_LABEL_VALUE)] }]
    pods := [] }

/-- A cluster with one stale managed deployment `old` and one managed pod
running the `web-c` image. -/
def staleCluster : ClusterState :=
  { deployments := [{ name := "old", labels := [] }]
    services := []
    hpas := []
    pods := [{ name := "p1", labels := [(MANAGED_LABEL_KEY, MANAGED_LABEL_VALUE)]
               firstContainerImage := REGISTRY ++ "web-c", otherContainerImages := [] }] }

/-- Answers approving the deployment-deletion and pod-restart prompts. -/
def approveAnswers : Answers :=
  { deployments := "y", services := "n", hpas := "n", pods := "y" }

/-- A cluster holding one managed autoscaler `a1` and nothing else. -/
def hpaOnlyCluster : ClusterState :=
  { deployments := [], services := []
    hpas := [{ name := "a1", labels := [(MANAGED_LABEL_KEY, MANAGED_LABEL_VALUE)] }]
    pods := [] }

/-- Answers approving only the autoscaler-deletion prompt. -/
def hpaYesAnswers : Answers :=
  { deployments := "n", services := "n", hpas := "y", pods := "n" }

/-- A managed pod whose changed image sits only in its second container. -/
def sidecarPod : Pod :=
  { name := "p2", labels := [(MANAGED_LABEL_KEY, MANAGED_LABEL_VALUE)]
    firstContainerImage := "sidecar-image", otherContainerImages := [REGISTRY ++ "web-c"] }

theorem char_toLower_eq_y_iff (c : Char) : c.toLower = 'y' ↔ c = 'y' ∨ c = 'Y' := by
  constructor
  · intro h
    rw [Char.toLower] at h
    by_cases hc : c.toNat ≥ 65 ∧ c.toNat ≤ 90
    · rw [if_pos hc] at h
      right
      have h121 : (Char.ofNat (c.toNat + 32)).toNat = 121 := by rw [h]; rfl
      have hval : Nat.isValidChar (c.toNat + 32) := Or.inl (by omega)
      rw [Char.ofNat, dif_pos hval] at h121
      have h89 : c.toNat = 89 := by
        have : (Char.ofNatAux (c.toNat + 32) hval).toNat = c.toNat + 32 := rfl
        omega
      have hc' := Char.ofNat_toNat c
      rw [h89] at hc'
      rw [← hc']
    · rw [if_neg hc] at h
      exact Or.inl h
  · rintro (rfl | rfl) <;> rfl

theorem pyLower_eq_y_iff (s : String) : pyLower s = "y" ↔ s = "y" ∨ s = "Y" := by
  obtain ⟨l⟩ := s
  have hdata : ∀ t u : String, t = u ↔ t.data = u.data := by
    intro t u
    refine ⟨congrArg String.data, fun h => ?_⟩
    cases t
    cases u
    exact congrArg String.mk h
  rw [hdata, hdata, hdata]
  show l.map Char.toLower = ['y'] ↔ l = ['y'] ∨ l = ['Y']
  constructor
  · intro h
    rcases l with _ | ⟨c, _ | ⟨c', rest⟩⟩
    · exact absurd h (by simp)
    · have hc : c.toLower = 'y' := by simpa using h
      rcases (char_toLower_eq_y_iff c).1 hc with rfl | rfl
      · exact Or.inl rfl
      · exact Or.inr rfl
    · exact absurd h (by simp)
  · rintro (rfl | rfl) <;> rfl

theorem createLoop_deployed_deployments (cs : List Challenge) (st : ClusterState) :
    (createLoop cs st).deployed_deployments = cs.filter (fun c => c.hasDockerfile) := by
  induction cs generalizing st with
  | nil => rfl
  | cons c cs ih =>
      cases h : c.hasDockerfile <;> simp [createLoop, h, ih, List.filter_cons]

theorem createLoop_deployed_services (cs : List Challenge) (st : ClusterState) :
    (createLoop cs st).deployed_services = cs.filter (fun c => c.hasDockerfile) := by
  induction cs generalizing st with
  | nil => rfl
  | cons c cs ih =>
      cases h : c.hasDockerfile <;> simp [createLoop, h, ih, List.filter_cons]

theorem createLoop_deployed_hpas (cs : List Challenge) (st : ClusterState) :
    (createLoop cs st).deployed_hpas = [] := by
  induction cs generalizing st with
  | nil => rfl
  | cons c cs ih =>
      cases h : c.hasDockerfile <;> simp [createLoop, h, ih]

theorem prompt_mem_confirmAndDelete (k : Kind) (batch : List String) (a : String)
    (h : batch ≠ []) : Event.prompt k batch ∈ (confirmAndDelete k batch a).1 := by
  unfold confirmAndDelete
  have hlen : batch.length > 0 := List.length_pos.mpr h
  rw [if_pos hlen]
  by_cases hy : pyLower a == "y" <;> simp [hy]

/-- Claim C1, counterexample: With one desired workload `web-c`, a cluster
holding an unlabeled deployment `intruder` and a managed autoscaler named
`web-c`: the unlabeled `intruder` is proposed for deletion, and the autoscaler
is proposed although its name is in the desired-workload id set. -/
theorem C1_counterexample :
    KObj.managed { name := "intruder", labels := [] } = false ∧
    sampleChallenge.hasDockerfile = true ∧
    sampleChallenge.id = "web-c" ∧
    (reconcile [sampleChallenge] allNoAnswers mixedCluster).toDeleteDeployments
      = ["intruder"] ∧
    Event.prompt .deployment ["intruder"]
      ∈ (reconcile [sampleChallenge] allNoAnswers mixedCluster).events ∧
    (reconcile [sampleChallenge] allNoAnswers mixedCluster).toDeleteHpas
      = ["web-c"] := by decide

/-- Claim C1, amended: In every reconciliation run, a resource is proposed for
deletion exactly when its name (as listed after the create/update pass) is
absent from the per-kind deployed id set — the ids of Dockerfile-bearing
workloads for Deployments and Services, and the empty set for Autoscalers
(whose creation branch is disabled), so every Autoscaler is proposed; the
management label is never consulted.  A non-empty batch is surfaced through the
confirmation prompt listing it. -/
theorem C1_deletion_proposals (challenges : List Challenge) (ans : Answers)
    (st : ClusterState) (n : String) :
    (n ∈ (reconcile challenges ans st).toDeleteDeployments ↔
      n ∈ (createLoop challenges st).state.deployments.map KObj.name ∧
        n ∉ ((challenges.filter (fun c => c.hasDockerfile)).map Challenge.id)) ∧
    (n ∈ (reconcile challenges ans st).toDeleteServices ↔
      n ∈ (createLoop challenges st).state.services.map KObj.name ∧
        n ∉ ((challenges.filter (fun c => c.hasDockerfile)).map Challenge.id)) ∧
    (n ∈ (reconcile challenges ans st).toDeleteHpas ↔
      n ∈ (createLoop challenges st).state.hpas.map KObj.name) ∧
    ((reconcile challenges ans st).toDeleteDeployments ≠ [] →
      Event.prompt .deployment (reconcile challenges ans st).toDeleteDeployments
        ∈ (reconcile challenges ans st).events) := by
  refine ⟨?_, ?_, ?_, ?_⟩
  · simp [reconcile, toDeleteBatch, createLoop_deployed_deployments, List.mem_filter]
  · simp [reconcile, toDeleteBatch, createLoop_deployed_services, List.mem_filter]
  · simp [reconcile, toDeleteBatch, createLoop_deployed_hpas, List.mem_filter]
  · intro hne
    have h := prompt_mem_confirmAndDelete .deployment
      (reconcile challenges ans st).toDeleteDeployments ans.deployments hne
    simp only [reconcile] at h ⊢
    simp [List.mem_append]
    right
    left
    exact h

/-- Claim C1, amended, witness: -/
theorem C1_deletion_proposals_witness :
    Event.prompt .deployment ["intruder"]
      ∈ (reconcile [sampleChallenge] allNoAnswers mixedCluster).events :=
  (C1_deletion_proposals [sampleChallenge] allNoAnswers mixedCluster "intruder").2.2.2
    (by decide)

/-- Claim C2, counterexample: After a first run from the empty cluster with one
desired workload, the second identical run issues two replace calls — two
Kubernetes mutation calls, not zero. -/
theorem C2_counterexample :
    ((main [sampleChallenge] false false [] [] allNoAnswers
        (main [sampleChallenge] false false [] [] allNoAnswers emptyCluster).state).events.filter
      Event.isMutation)
      = [Event.replace .deployment "web-c", Event.replace .service "web-c"] := by decide

/-- Claim C4, counterexample: For a workload with a build context the run issues
zero Autoscaler create-or-update calls (not one): the autoscaler branch is
guarded by the literal condition `1 + 1 == 1`. -/
theorem C4_counterexample :
    sampleChallenge.hasDockerfile = true ∧
    countCU .hpa sampleChallenge.id
      (reconcile [sampleChallenge] allNoAnswers emptyCluster).events = 0 ∧
    (reconcile [sampleChallenge] allNoAnswers emptyCluster).events.any
      Event.isHpaCreateOrUpdate = false := by decide

/-- Claim C5 (code bug): With `ignore_existing` active and one Dockerfile-bearing
workload, `build_and_push_images` raises `UnboundLocalError` (the local
`images_repositories` is assigned only when the flag is off) and nothing is
built or pushed; and in the only non-crashing mode (flag off) a workload whose
tag is already in the registry snapshot is still built and pushed — nothing is
ever skipped. -/
theorem C5_failing_eval :
    (build_and_push_images emptyCluster [sampleChallenge] true [] [] "n").error
      = some PyError.unboundLocalError ∧
    (build_and_push_images emptyCluster [sampleChallenge] true [] [] "n").events = [] ∧
    (build_and_push_images emptyCluster [sampleChallenge] false
      [(REGISTRY ++ "web-c", "sha-A")] [(REGISTRY ++ "web-c", "sha-A")] "n").events
      = [Event.build (REGISTRY ++ "web-c"), Event.push (REGISTRY ++ "web-c")] := by decide

theorem cou_events_cu (st : ClusterState) (r : Resource) :
    ∀ e ∈ (create_or_update_resource st r).1, e.isCreateOrUpdate = true := by
  cases r with
  | deployment d =>
      simp only [create_or_update_resource, create_or_update_deployment]
      split <;> simp [Event.isCreateOrUpdate]
  | service s =>
      simp only [create_or_update_resource, create_or_update_service]
      split <;> simp [Event.isCreateOrUpdate]
  | hpa h =>
      simp only [create_or_update_resource, create_or_update_hpa]
      split <;> simp [Event.isCreateOrUpdate]

theorem createLoop_events_cu (cs : List Challenge) (st : ClusterState) :
    ∀ e ∈ (createLoop cs st).events, e.isCreateOrUpdate = true := by
  induction cs generalizing st with
  | nil => intro e he; simp [createLoop] at he
  | cons c cs ih =>
      intro e he
      cases h : c.hasDockerfile
      · simp only [createLoop, h, Bool.false_eq_true, if_false] at he
        exact ih st e he
      · simp only [createLoop, h, if_true, List.mem_append] at he
        simp at he
        rcases he with (he | he) | he
        · exact cou_events_cu _ _ e he
        · exact cou_events_cu _ _ e he
        · exact ih _ e he

theorem confirmAndDelete_events_shape (k : Kind) (b : List String) (a : String) :
    ∀ e ∈ (confirmAndDelete k b a).1,
      e = Event.prompt k b ∨ ∃ n, n ∈ b ∧ e = Event.delete k n := by
  unfold confirmAndDelete
  split
  · split
    · intro e he
      rcases List.mem_cons.1 he with rfl | he
      · exact Or.inl rfl
      · simp only [List.mem_map] at he
        obtain ⟨n, hn, rfl⟩ := he
        exact Or.inr ⟨n, hn, rfl⟩
    · intro e he
      simp only [List.mem_singleton] at he
      exact Or.inl he
  · intro e he
    simp at he

theorem hpaDeletionPass_events_shape (b : List String) (a : String) :
    ∀ e ∈ (hpaDeletionPass b a).1, e = Event.prompt .hpa b := by
  unfold hpaDeletionPass
  split
  · split <;> · intro e he; simpa using he
  · intro e he; simp at he

theorem update_pods_events_shape (st : ClusterState) (images : List String) (a : String) :
    ∀ e ∈ (update_pods st images a).1,
      e = Event.prompt .pod (pods_to_delete st.pods images)
        ∨ ∃ n, e = Event.delete .pod n := by
  intro e he
  simp only [update_pods] at he
  by_cases hb : 0 < (pods_to_delete st.pods images).length
  · rw [if_pos hb] at he
    by_cases hy : (pyLower a == "y") = true
    · rw [if_pos hy] at he
      rcases List.mem_cons.1 he with rfl | he
      · exact Or.inl rfl
      · simp only [List.mem_map] at he
        obtain ⟨n, -, rfl⟩ := he
        exact Or.inr ⟨n, rfl⟩
    · rw [if_neg hy] at he
      simp only [List.mem_singleton] at he
      exact Or.inl he
  · rw [if_neg hb] at he
    simp at he

theorem build_and_push_events_shape (st : ClusterState) (ch : List Challenge)
    (ie : Bool) (before after : List (String × String)) (ap : String) :
    ∀ e ∈ (build_and_push_images st ch ie before after ap).events,
      e.isCreateOrUpdate = false ∧ e.isResourceDelete = false ∧ e.isHpaDelete = false := by
  intro e he
  simp only [build_and_push_images] at he
  cases hcc : collectCommands (if ie then none else some []) ch with
  | error err =>
      rw [hcc] at he
      simp at he
  | ok bp =>
      obtain ⟨bs, ps⟩ := bp
      rw [hcc] at he
      dsimp only [] at he
      by_cases hu : (updated_images (registryDigestsMap before) after).length > 0
      · rw [if_pos hu] at he
        simp only [List.mem_append] at he
        rcases he with (he | he) | he
        · simp only [List.mem_map] at he
          obtain ⟨t, -, rfl⟩ := he
          exact ⟨rfl, rfl, rfl⟩
        · simp only [List.mem_map] at he
          obtain ⟨t, -, rfl⟩ := he
          exact ⟨rfl, rfl, rfl⟩
        · rcases update_pods_events_shape _ _ _ e he with rfl | ⟨n, rfl⟩
          · exact ⟨rfl, rfl, rfl⟩
          · exact ⟨rfl, rfl, rfl⟩
      · rw [if_neg hu] at he
        simp only [List.mem_append] at he
        rcases he with he | he
        · simp only [List.mem_map] at he
          obtain ⟨t, -, rfl⟩ := he
          exact ⟨rfl, rfl, rfl⟩
        · simp only [List.mem_map] at he
          obtain ⟨t, -, rfl⟩ := he
          exact ⟨rfl, rfl, rfl⟩

theorem precedes_of_no_early (early late : Event → Bool) (l : List Event)
    (h : ∀ e ∈ l, early e = false) : precedes early late l = true := by
  induction l with
  | nil => rfl
  | cons e l ih =>
      simp only [precedes, Bool.and_eq_true]
      refine ⟨?_, ih fun x hx => h x (List.mem_cons_of_mem _ hx)⟩
      split
      · exact List.all_eq_true.mpr fun x hx => by
          rw [h x (List.mem_cons_of_mem _ hx)]; rfl
      · rfl

theorem precedes_of_no_late (early late : Event → Bool) (l : List Event)
    (h : ∀ e ∈ l, late e = false) : precedes early late l = true := by
  induction l with
  | nil => rfl
  | cons e l ih =>
      simp only [precedes, Bool.and_eq_true]
      refine ⟨?_, ih fun x hx => h x (List.mem_cons_of_mem _ hx)⟩
      rw [h e (List.mem_cons_self _ _)]
      rfl

theorem precedes_split (early late : Event → Bool) (xs ys : List Event)
    (hx : ∀ e ∈ xs, late e = false) (hy : ∀ e ∈ ys, early e = false) :
    precedes early late (xs ++ ys) = true := by
  induction xs with
  | nil => simpa using precedes_of_no_early early late ys hy
  | cons e xs ih =>
      simp only [List.cons_append, precedes, Bool.and_eq_true]
      refine ⟨?_, ih fun x hxx => hx x (List.mem_cons_of_mem _ hxx)⟩
      rw [hx e (List.mem_cons_self _ _)]
      rfl

theorem reconcile_events_decomp (ch : List Challenge) (ans : Answers) (st : ClusterState) :
    ∃ t, (reconcile ch ans st).events = (createLoop ch st).events ++ t ∧
      ∀ e ∈ t, e.isCreateOrUpdate = false ∧ e.isPodDelete = false ∧ e.isHpaDelete = false := by
  refine ⟨_, rfl, ?_⟩
  intro e he
  simp only [List.mem_append] at he
  rcases he with (he | he) | he
  · rcases confirmAndDelete_events_shape _ _ _ e he with rfl | ⟨n, -, rfl⟩
    · exact ⟨rfl, rfl, rfl⟩
    · exact ⟨rfl, rfl, rfl⟩
  · rcases confirmAndDelete_events_shape _ _ _ e he with rfl | ⟨n, -, rfl⟩
    · exact ⟨rfl, rfl, rfl⟩
    · exact ⟨rfl, rfl, rfl⟩
  · have := hpaDeletionPass_events_shape _ _ e he
    subst this
    exact ⟨rfl, rfl, rfl⟩

/-- Claim C3, counterexample: In a run that rebuilds a changed image and also has
a stale deployment to delete, the pod restart (eviction) is issued at the start
of the run, before the deployment deletion — so deletions do not precede
restart evictions. -/
theorem C3_counterexample :
    precedes Event.isResourceDelete Event.isPodDelete
      (main [sampleChallenge] true false [(REGISTRY ++ "web-c", "sha-A")]
        [(REGISTRY ++ "web-c", "sha-B")] approveAnswers staleCluster).events = false ∧
    (main [sampleChallenge] true false [(REGISTRY ++ "web-c", "sha-A")]
        [(REGISTRY ++ "web-c", "sha-B")] approveAnswers staleCluster).events.any
      Event.isResourceDelete = true ∧
    (main [sampleChallenge] true false [(REGISTRY ++ "web-c", "sha-A")]
        [(REGISTRY ++ "web-c", "sha-B")] approveAnswers staleCluster).events.any
      Event.isPodDelete = true := by decide

/-- Claim C7, counterexample: The autoscaler batch `["a1"]` is prompted and the
operator answers exactly `"y"`, yet zero delete calls are made for that batch
and an `AttributeError` is raised — so the destructive calls are not issued on
approval, and an error does occur. -/
theorem C7_counterexample :
    (reconcile [] hpaYesAnswers hpaOnlyCluster).toDeleteHpas = ["a1"] ∧
    Event.prompt .hpa ["a1"] ∈ (reconcile [] hpaYesAnswers hpaOnlyCluster).events ∧
    hpaYesAnswers.hpas = "y" ∧
    (reconcile [] hpaYesAnswers hpaOnlyCluster).events.filter Event.isMutation = [] ∧
    (reconcile [] hpaYesAnswers hpaOnlyCluster).error = some PyError.attributeError := by
  decide

theorem cu_not_rd (e : Event) (h : e.isCreateOrUpdate = true) :
    e.isResourceDelete = false := by
  cases e <;> first | rfl | exact absurd h (by simp [Event.isCreateOrUpdate])

theorem cu_not_pd (e : Event) (h : e.isCreateOrUpdate = true) :
    e.isPodDelete = false := by
  cases e <;> first | rfl | exact absurd h (by simp [Event.isCreateOrUpdate])

theorem cu_not_hd (e : Event) (h : e.isCreateOrUpdate = true) :
    e.isHpaDelete = false := by
  cases e <;> first | rfl | exact absurd h (by simp [Event.isCreateOrUpdate])

theorem run_event_order (A B C : List Event)
    (hA : ∀ e ∈ A, e.isCreateOrUpdate = false ∧ e.isResourceDelete = false)
    (hB : ∀ e ∈ B, e.isCreateOrUpdate = true)
    (hC : ∀ e ∈ C, e.isCreateOrUpdate = false ∧ e.isPodDelete = false) :
    precedes Event.isCreateOrUpdate Event.isResourceDelete (A ++ (B ++ C)) = true ∧
    precedes Event.isPodDelete Event.isCreateOrUpdate (A ++ (B ++ C)) = true ∧
    precedes Event.isPodDelete Event.isResourceDelete (A ++ (B ++ C)) = true := by
  refine ⟨?_, ?_, ?_⟩
  · rw [← List.append_assoc]
    refine precedes_split _ _ _ _ (fun e he => ?_) (fun e he => (hC e he).1)
    rcases List.mem_append.1 he with h | h
    · exact (hA e h).2
    · exact cu_not_rd e (hB e h)
  · refine precedes_split _ _ _ _ (fun e he => (hA e he).1) (fun e he => ?_)
    rcases List.mem_append.1 he with h | h
    · exact cu_not_pd e (hB e h)
    · exact (hC e h).2
  · rw [← List.append_assoc]
    refine precedes_split _ _ _ _ (fun e he => ?_) (fun e he => (hC e he).2)
    rcases List.mem_append.1 he with h | h
    · exact (hA e h).2
    · exact cu_not_rd e (hB e h)

theorem main_events_decomp (ch : List Challenge) (bi ie : Bool)
    (before after : List (String × String)) (ans : Answers) (st : ClusterState) :
    ∃ A B C, (main ch bi ie before after ans st).events = A ++ (B ++ C) ∧
      (∀ e ∈ A, e.isCreateOrUpdate = false ∧ e.isResourceDelete = false ∧
        e.isHpaDelete = false) ∧
      (∀ e ∈ B, e.isCreateOrUpdate = true) ∧
      (∀ e ∈ C, e.isCreateOrUpdate = false ∧ e.isPodDelete = false ∧
        e.isHpaDelete = false) := by
  by_cases hbi : bi = true
  · subst hbi
    cases herr : (build_and_push_images st ch ie before after ans.pods).error with
    | some err =>
        refine ⟨(build_and_push_images st ch ie before after ans.pods).events, [], [],
          ?_, ?_, by simp, by simp⟩
        · simp [main, herr]
        · intro e he
          exact build_and_push_events_shape _ _ _ _ _ _ e he
    | none =>
        obtain ⟨t, ht, htp⟩ := reconcile_events_decomp ch ans
          (build_and_push_images st ch ie before after ans.pods).state
        refine ⟨(build_and_push_images st ch ie before after ans.pods).events,
          (createLoop ch (build_and_push_images st ch ie before after ans.pods).state).events,
          t, ?_, ?_, createLoop_events_cu _ _, htp⟩
        · simp [main, herr, ht]
        · intro e he
          exact build_and_push_events_shape _ _ _ _ _ _ e he
  · have hbi0 : bi = false := by revert hbi; cases bi <;> simp
    subst hbi0
    obtain ⟨t, ht, htp⟩ := reconcile_events_decomp ch ans st
    refine ⟨[], (createLoop ch st).events, t, ?_, by simp, createLoop_events_cu _ _, htp⟩
    simp [main, ht]

/-- Claim C3, amended: In every run, all create/update calls are issued before
any Deployment/Service/Autoscaler deletion; but pod restart evictions are
issued during the build phase at the very start of the run — before all
creations/updates and deletions — not after the deletion pass. -/
theorem C3_apply_order (ch : List Challenge) (bi ie : Bool)
    (before after : List (String × String)) (ans : Answers) (st : ClusterState) :
    precedes Event.isCreateOrUpdate Event.isResourceDelete
      (main ch bi ie before after ans st).events = true ∧
    precedes Event.isPodDelete Event.isCreateOrUpdate
      (main ch bi ie before after ans st).events = true ∧
    precedes Event.isPodDelete Event.isResourceDelete
      (main ch bi ie before after ans st).events = true := by
  obtain ⟨A, B, C, hl, hA, hB, hC⟩ := main_events_decomp ch bi ie before after ans st
  rw [hl]
  exact run_event_order A B C (fun e he => ⟨(hA e he).1, (hA e he).2.1⟩) hB
    (fun e he => ⟨(hC e he).1, (hC e he).2.1⟩)

/-- Claim C8: No run ever issues a successful Autoscaler delete call, and when a
non-empty autoscaler batch is approved (lowered answer `"y"`), the run aborts
with `AttributeError`: the delete is attempted through the `CoreV1Api` handle,
which has no `delete_namespaced_horizontal_pod_autoscaler` method. -/
theorem C8_hpa_delete_impossible (ch : List Challenge) (bi ie : Bool)
    (before after : List (String × String)) (ans : Answers) (st : ClusterState) :
    ((main ch bi ie before after ans st).events.all fun e => !e.isHpaDelete) = true ∧
    ((reconcile ch ans st).toDeleteHpas ≠ [] → pyLower ans.hpas = "y" →
      (reconcile ch ans st).error = some PyError.attributeError) := by
  constructor
  · rw [List.all_eq_true]
    intro e he
    obtain ⟨A, B, C, hl, hA, hB, hC⟩ := main_events_decomp ch bi ie before after ans st
    rw [hl] at he
    simp only [List.mem_append] at he
    have hf : e.isHpaDelete = false := by
      rcases he with he | he | he
      · exact (hA e he).2.2
      · exact cu_not_hd e (hB e he)
      · exact (hC e he).2.2
    simp [hf]
  · intro hne hy
    show (hpaDeletionPass (reconcile ch ans st).toDeleteHpas ans.hpas).2 = _
    unfold hpaDeletionPass
    rw [if_pos (List.length_pos.mpr hne), if_pos (beq_iff_eq.mpr hy)]

/-- Claim C8, witness: -/
theorem C8_hpa_delete_impossible_witness :
    (reconcile [] hpaYesAnswers hpaOnlyCluster).error = some PyError.attributeError :=
  (C8_hpa_delete_impossible [] false false [] [] hpaYesAnswers hpaOnlyCluster).2
    (by decide) (by decide)

/-- Claim C9: Restart selection looks only at the first container image of each
managed pod: a pod whose changed image appears only among its other containers
(and whose first container image is not in the changed set) is never selected,
and — when pod names are unique — its name never enters `pods_to_delete`. -/
theorem C9_first_container_only (pods : List Pod) (images : List String) (p : Pod)
    (img : String) (h1 : img ∈ p.otherContainerImages) (h2 : img ∈ images)
    (h3 : p.firstContainerImage ∉ images) :
    p ∉ selectedPods pods images ∧
    ((∀ q ∈ pods, q.name = p.name → q = p) → p.name ∉ pods_to_delete pods images) := by
  have hsel : p ∉ selectedPods pods images := by
    intro hmem
    simp only [selectedPods, List.mem_filter] at hmem
    exact h3 (by simpa using hmem.2)
  refine ⟨hsel, ?_⟩
  intro huniq hname
  simp only [pods_to_delete, List.mem_map] at hname
  obtain ⟨q, hq, hqn⟩ := hname
  have hqpods : q ∈ pods := by
    simp only [selectedPods, List.mem_filter] at hq
    exact hq.1.1
  have hqp : q = p := huniq q hqpods hqn
  subst hqp
  exact hsel hq

/-- Claim C9, witness: -/
theorem C9_first_container_only_witness :
    sidecarPod ∉ selectedPods [sidecarPod] [REGISTRY ++ "web-c"] :=
  (C9_first_container_only [sidecarPod] [REGISTRY ++ "web-c"] sidecarPod
    (REGISTRY ++ "web-c") (by decide) (by decide) (by decide)).1

theorem removeNamed_managed (l : List KObj) (h : (l.map KObj.name).Nodup) :
    removeNamed l ((l.filter KObj.managed).map KObj.name)
      = l.filter (fun o => !KObj.managed o) := by
  unfold removeNamed
  apply List.filter_congr
  intro o ho
  have hmem : ((l.filter KObj.managed).map KObj.name).contains o.name = KObj.managed o := by
    by_cases hm : KObj.managed o = true
    · rw [hm]
      have : o.name ∈ (l.filter KObj.managed).map KObj.name :=
        List.mem_map_of_mem _ (List.mem_filter.mpr ⟨ho, hm⟩)
      simpa using this
    · rw [Bool.not_eq_true] at hm
      rw [hm]
      have : o.name ∉ (l.filter KObj.managed).map KObj.name := by
        intro hc
        simp only [List.mem_map, List.mem_filter] at hc
        obtain ⟨o', ⟨ho', hmo'⟩, hno'⟩ := hc
        have : o' = o := List.inj_on_of_nodup_map h ho' ho hno'
        subst this
        rw [hmo'] at hm
        cases hm
      simpa using this
  rw [hmem]

/-- Claim C10: `clean_cluster` deletes exactly the Services and the Deployments
of the namespace that carry the management label, in that order; autoscalers,
pods, and every unlabeled resource are left unchanged. -/
theorem C10_clean_cluster (st : ClusterState)
    (hS : (st.services.map KObj.name).Nodup)
    (hD : (st.deployments.map KObj.name).Nodup) :
    (clean_cluster st).1
      = ((st.services.filter KObj.managed).map KObj.name).map (Event.delete .service)
        ++ ((st.deployments.filter KObj.managed).map KObj.name).map
            (Event.delete .deployment) ∧
    (clean_cluster st).2.services = st.services.filter (fun o => !KObj.managed o) ∧
    (clean_cluster st).2.deployments = st.deployments.filter (fun o => !KObj.managed o) ∧
    (clean_cluster st).2.hpas = st.hpas ∧
    (clean_cluster st).2.pods = st.pods := by
  refine ⟨rfl, ?_, ?_, rfl, rfl⟩
  · exact removeNamed_managed st.services hS
  · exact removeNamed_managed st.deployments hD

/-- Claim C10, witness: -/
theorem C10_clean_cluster_witness :
    (clean_cluster mixedCluster).2.services
      = mixedCluster.services.filter (fun o => !KObj.managed o) :=
  (C10_clean_cluster mixedCluster (by decide) (by decide)).2.1

/-- Claim C7, amended: Every non-empty batch is guarded by one confirmation
prompt listing it.  For Deployment and Service deletion batches and for the
pod-restart batch, the delete calls are issued exactly when the operator's
answer is `"y"` or `"Y"` (the strings whose lowering is `"y"`), and any other
answer issues zero deletes with no error.  For the Autoscaler batch a
non-approving answer likewise issues zero deletes and no error, but an
approving answer raises `AttributeError` and deletes nothing (see C8). -/
theorem C7_confirmation_gates (k : Kind) (batch : List String) (answer : String)
    (st : ClusterState) (images : List String) :
    (pyLower answer = "y" ↔ answer = "y" ∨ answer = "Y") ∧
    (batch ≠ [] → pyLower answer = "y" →
      confirmAndDelete k batch answer
        = (Event.prompt k batch :: batch.map (Event.delete k), batch)) ∧
    (batch ≠ [] → pyLower answer ≠ "y" →
      confirmAndDelete k batch answer = ([Event.prompt k batch], [])) ∧
    (batch ≠ [] → pyLower answer = "y" →
      hpaDeletionPass batch answer
        = ([Event.prompt .hpa batch], some PyError.attributeError)) ∧
    (batch ≠ [] → pyLower answer ≠ "y" →
      hpaDeletionPass batch answer = ([Event.prompt .hpa batch], none)) ∧
    (pods_to_delete st.pods images ≠ [] → pyLower answer = "y" →
      (update_pods st images answer).1
        = Event.prompt .pod (pods_to_delete st.pods images)
            :: (pods_to_delete st.pods images).map (Event.delete .pod)) ∧
    (pyLower answer ≠ "y" →
      ((update_pods st images answer).1.all fun e => !e.isMutation) = true ∧
      (update_pods st images answer).2 = st) := by
  refine ⟨pyLower_eq_y_iff answer, ?_, ?_, ?_, ?_, ?_, ?_⟩
  · intro hb hy
    unfold confirmAndDelete
    rw [if_pos (List.length_pos.mpr hb), if_pos (beq_iff_eq.mpr hy)]
  · intro hb hy
    unfold confirmAndDelete
    rw [if_pos (List.length_pos.mpr hb), if_neg (fun hc => hy (beq_iff_eq.mp hc))]
  · intro hb hy
    unfold hpaDeletionPass
    rw [if_pos (List.length_pos.mpr hb), if_pos (beq_iff_eq.mpr hy)]
  · intro hb hy
    unfold hpaDeletionPass
    rw [if_pos (List.length_pos.mpr hb), if_neg (fun hc => hy (beq_iff_eq.mp hc))]
  · intro hb hy
    show (update_pods st images answer).1 = _
    unfold update_pods
    rw [if_pos (List.length_pos.mpr hb), if_pos (beq_iff_eq.mpr hy)]
  · intro hy
    unfold update_pods
    by_cases hb : 0 < (pods_to_delete st.pods images).length
    · rw [if_pos hb, if_neg (fun hc => hy (beq_iff_eq.mp hc))]
      exact ⟨rfl, rfl⟩
    · rw [if_neg hb]
      exact ⟨rfl, rfl⟩

/-- Claim C7, amended, witness: -/
theorem C7_confirmation_gates_witness :
    confirmAndDelete .deployment ["old"] "Y"
      = (Event.prompt .deployment ["old"]
          :: (["old"].map (Event.delete .deployment)), ["old"]) :=
  (C7_confirmation_gates .deployment ["old"] "Y" emptyCluster []).2.1
    (by decide)
    ((C7_confirmation_gates .deployment ["old"] "Y" emptyCluster []).1.mpr (Or.inr rfl))

theorem countCU_append (k : Kind) (n : String) (xs ys : List Event) :
    countCU k n (xs ++ ys) = countCU k n xs + countCU k n ys := by
  simp [countCU, List.filter_append]

theorem countCU_eq_zero_of_no_cu (k : Kind) (n : String) (l : List Event)
    (h : ∀ e ∈ l, e.isCreateOrUpdate = false) : countCU k n l = 0 := by
  simp only [countCU, List.length_eq_zero, List.filter_eq_nil_iff]
  intro e he
  have hcu := h e he
  cases e <;> simp_all [Event.isCreateOrUpdate, beq_iff_eq]

theorem countCU_singleton (k : Kind) (x : String) (e : Event) :
    countCU k x [e] = if e = Event.create k x ∨ e = Event.replace k x then 1 else 0 := by
  unfold countCU
  by_cases h : e = Event.create k x ∨ e = Event.replace k x
  · rw [if_pos h]
    have hb : (e == Event.create k x || e == Event.replace k x) = true := by
      rcases h with h | h <;> simp [h]
    simp [List.filter, hb]
  · rw [if_neg h]
    push_neg at h
    have hb : (e == Event.create k x || e == Event.replace k x) = false := by
      simp only [Bool.or_eq_false_iff]
      constructor <;> · rw [beq_eq_false_iff_ne]; simp [h.1, h.2]
    simp [List.filter, hb]

theorem countCU_cou_shape (st : ClusterState) (r : Resource) :
    (create_or_update_resource st r).1 = [Event.create r.toKind r.name]
      ∨ (create_or_update_resource st r).1 = [Event.replace r.toKind r.name] := by
  cases r <;>
    · simp only [create_or_update_resource, create_or_update_deployment,
        create_or_update_service, create_or_update_hpa]
      split
      · exact Or.inr rfl
      · exact Or.inl rfl

theorem countCU_cou (st : ClusterState) (r : Resource) (k : Kind) (x : String) :
    countCU k x (create_or_update_resource st r).1
      = if r.toKind = k ∧ r.name = x then 1 else 0 := by
  rcases countCU_cou_shape st r with hsh | hsh <;> rw [hsh, countCU_singleton] <;>
    by_cases hc : r.toKind = k ∧ r.name = x
  · rw [if_pos (Or.inl (by rw [hc.1, hc.2])), if_pos hc]
  · refine (if_neg ?_).trans (if_neg hc).symm
    rintro (h | h)
    · injection h with h1 h2
      exact hc ⟨h1, h2⟩
    · exact Event.noConfusion h
  · rw [if_pos (Or.inr (by rw [hc.1, hc.2])), if_pos hc]
  · refine (if_neg ?_).trans (if_neg hc).symm
    rintro (h | h)
    · exact Event.noConfusion h
    · injection h with h1 h2
      exact hc ⟨h1, h2⟩

theorem countCU_createLoop_dep (cs : List Challenge) (st : ClusterState) (x : String) :
    countCU .deployment x (createLoop cs st).events
      = ((cs.filter (fun c => c.hasDockerfile)).map Challenge.id).count x := by
  induction cs generalizing st with
  | nil => simp [createLoop, countCU]
  | cons c cs ih =>
      cases h : c.hasDockerfile
      · simp [createLoop, h, ih, List.filter_cons]
      · simp [createLoop, h, countCU_append, countCU_cou, ih, Resource.toKind,
          Resource.name, mkDeployment, mkService, List.count_cons, List.filter_cons]
        by_cases hx : c.id = x <;> simp [hx, Nat.add_comm]

theorem countCU_createLoop_svc (cs : List Challenge) (st : ClusterState) (x : String) :
    countCU .service x (createLoop cs st).events
      = ((cs.filter (fun c => c.hasDockerfile)).map Challenge.id).count x := by
  induction cs generalizing st with
  | nil => simp [createLoop, countCU]
  | cons c cs ih =>
      cases h : c.hasDockerfile
      · simp [createLoop, h, ih, List.filter_cons]
      · simp [createLoop, h, countCU_append, countCU_cou, ih, Resource.toKind,
          Resource.name, mkDeployment, mkService, List.count_cons, List.filter_cons]
        by_cases hx : c.id = x <;> simp [hx, Nat.add_comm]

theorem countCU_createLoop_hpa (cs : List Challenge) (st : ClusterState) (x : String) :
    countCU .hpa x (createLoop cs st).events = 0 := by
  induction cs generalizing st with
  | nil => simp [createLoop, countCU]
  | cons c cs ih =>
      cases h : c.hasDockerfile
      · simp [createLoop, h, ih]
      · simp [createLoop, h, countCU_append, countCU_cou, ih, Resource.toKind]

/-- Claim C4, amended: For every challenge workload with a build context (under
unique workload ids), one reconciliation run issues exactly one Deployment
create-or-update call and exactly one Service create-or-update call named
after the workload, and zero Autoscaler create-or-update calls: the autoscaler
block (whose spec would carry minReplicas=1, maxReplicas=10, target CPU
utilization 80%) sits under the literal condition `1 + 1 == 1`, which is
false. -/
theorem C4_synthesis (ch : List Challenge) (ans : Answers) (st : ClusterState)
    (c : Challenge)
    (hn : ((ch.filter (fun c => c.hasDockerfile)).map Challenge.id).Nodup)
    (hc : c ∈ ch) (hd : c.hasDockerfile = true) :
    countCU .deployment c.id (reconcile ch ans st).events = 1 ∧
    countCU .service c.id (reconcile ch ans st).events = 1 ∧
    countCU .hpa c.id (reconcile ch ans st).events = 0 ∧
    (mkHpa c).minReplicas = 1 ∧ (mkHpa c).maxReplicas = 10 ∧
    (mkHpa c).targetCPUUtilizationPercentage = 80 := by
  obtain ⟨t, ht, htp⟩ := reconcile_events_decomp ch ans st
  have htz : ∀ kk xx, countCU kk xx t = 0 := fun kk xx =>
    countCU_eq_zero_of_no_cu kk xx t (fun e he => (htp e he).1)
  have hmem : c.id ∈ (ch.filter (fun c => c.hasDockerfile)).map Challenge.id :=
    List.mem_map_of_mem _ (List.mem_filter.mpr ⟨hc, hd⟩)
  have hcount := List.count_eq_one_of_mem hn hmem
  refine ⟨?_, ?_, ?_, rfl, rfl, rfl⟩
  · rw [ht, countCU_append, countCU_createLoop_dep, htz, hcount]
  · rw [ht, countCU_append, countCU_createLoop_svc, htz, hcount]
  · rw [ht, countCU_append, countCU_createLoop_hpa, htz]

/-- Claim C4, amended, witness: -/
theorem C4_synthesis_witness :
    countCU .deployment sampleChallenge.id
      (reconcile [sampleChallenge] allNoAnswers emptyCluster).events = 1 :=
  (C4_synthesis [sampleChallenge] allNoAnswers emptyCluster sampleChallenge
    (by decide) (by decide) (by decide)).1

theorem mem_updated_images (m : List (String × String)) (after : List (String × String))
    (repo : String) :
    repo ∈ updated_images m after ↔
      strStartsWith repo REGISTRY = true ∧
      ∃ d0 d1, m.lookup repo = some d0 ∧ (repo, d1) ∈ after ∧
        d0 ≠ "" ∧ d1 ≠ "" ∧ d0 ≠ d1 := by
  induction after with
  | nil => simp [updated_images]
  | cons rd rest ih =>
      obtain ⟨r, d⟩ := rd
      by_cases hs : strStartsWith r REGISTRY = true
      · cases hm : List.lookup r m with
        | none =>
            have hred : updated_images m ((r, d) :: rest) = updated_images m rest := by
              simp only [updated_images, hs, if_true, hm]
            rw [hred, ih]
            constructor
            · rintro ⟨h1, d0, d1, h2, h3, h4, h5, h6⟩
              exact ⟨h1, d0, d1, h2, List.mem_cons_of_mem _ h3, h4, h5, h6⟩
            · rintro ⟨h1, d0, d1, h2, h3, h4, h5, h6⟩
              rcases List.mem_cons.1 h3 with h3 | h3
              · injection h3 with hr hd
                subst hr
                rw [hm] at h2
                cases h2
              · exact ⟨h1, d0, d1, h2, h3, h4, h5, h6⟩
        | some d0 =>
            by_cases hc : (d0 != d && d != "" && d0 != "") = true
            · have hred : updated_images m ((r, d) :: rest) = r :: updated_images m rest := by
                simp only [updated_images, hs, if_true, hm]
                rw [if_pos hc]
              rw [hred, List.mem_cons, ih]
              simp only [Bool.and_eq_true, bne_iff_ne, ne_eq] at hc
              constructor
              · rintro (rfl | ⟨h1, e0, e1, h2, h3, h4, h5, h6⟩)
                · exact ⟨hs, d0, d, hm, List.mem_cons_self _ _, hc.2, hc.1.2, hc.1.1⟩
                · exact ⟨h1, e0, e1, h2, List.mem_cons_of_mem _ h3, h4, h5, h6⟩
              · rintro ⟨h1, e0, e1, h2, h3, h4, h5, h6⟩
                rcases List.mem_cons.1 h3 with h3 | h3
                · exact Or.inl (congrArg Prod.fst h3)
                · exact Or.inr ⟨h1, e0, e1, h2, h3, h4, h5, h6⟩
            · have hred : updated_images m ((r, d) :: rest) = updated_images m rest := by
                simp only [updated_images, hs, if_true, hm]
                rw [if_neg hc]
              rw [hred, ih]
              constructor
              · rintro ⟨h1, e0, e1, h2, h3, h4, h5, h6⟩
                exact ⟨h1, e0, e1, h2, List.mem_cons_of_mem _ h3, h4, h5, h6⟩
              · rintro ⟨h1, e0, e1, h2, h3, h4, h5, h6⟩
                rcases List.mem_cons.1 h3 with h3 | h3
                · injection h3 with hr hd
                  subst hr
                  subst hd
                  rw [hm] at h2
                  injection h2 with h2
                  subst h2
                  have hcc : (d0 != e1 && e1 != "" && d0 != "") = true := by
                    simp only [Bool.and_eq_true, bne_iff_ne, ne_eq]
                    exact ⟨⟨h6, h5⟩, h4⟩
                  exact absurd hcc hc
                · exact ⟨h1, e0, e1, h2, h3, h4, h5, h6⟩
      · have hred : updated_images m ((r, d) :: rest) = updated_images m rest := by
          simp only [updated_images]
          rw [if_neg hs]
        rw [hred, ih]
        constructor
        · rintro ⟨h1, e0, e1, h2, h3, h4, h5, h6⟩
          exact ⟨h1, e0, e1, h2, List.mem_cons_of_mem _ h3, h4, h5, h6⟩
        · rintro ⟨h1, e0, e1, h2, h3, h4, h5, h6⟩
          rcases List.mem_cons.1 h3 with h3 | h3
          · injection h3 with hr hd
            subst hr
            exact absurd h1 hs
          · exact ⟨h1, e0, e1, h2, h3, h4, h5, h6⟩

/-- Claim C6: A repository is in the changed-image set exactly when it has the
registry prefix, appears in the before map (first digest wins) with a non-empty
digest, and some after-snapshot line gives it a different non-empty digest.
Consequently, a workload whose digests are unchanged across the push never has
its pods selected for restart, and a workload with a changed digest always has
every running managed pod carrying its image selected. -/
theorem C6_digest_driven_restart (before after : List (String × String))
    (repo : String) (st : ClusterState) (p : Pod) :
    (repo ∈ updated_images (registryDigestsMap before) after ↔
      strStartsWith repo REGISTRY = true ∧
      ∃ d0 d1, (registryDigestsMap before).lookup repo = some d0 ∧
        (repo, d1) ∈ after ∧ d0 ≠ "" ∧ d1 ≠ "" ∧ d0 ≠ d1) ∧
    ((∀ d, (repo, d) ∈ after → (registryDigestsMap before).lookup repo = some d) →
      p.firstContainerImage = repo →
      p ∉ selectedPods st.pods (updated_images (registryDigestsMap before) after)) ∧
    (repo ∈ updated_images (registryDigestsMap before) after →
      p ∈ st.pods → p.managed = true → p.firstContainerImage = repo →
      p.name ∈ pods_to_delete st.pods
        (updated_images (registryDigestsMap before) after)) := by
  refine ⟨mem_updated_images _ after repo, ?_, ?_⟩
  · intro hU hp hmem
    simp only [selectedPods, List.mem_filter] at hmem
    have hrepo : repo ∈ updated_images (registryDigestsMap before) after := by
      have := hmem.2
      rw [hp] at this
      simpa using this
    obtain ⟨-, d0, d1, hl, hin, -, -, hne⟩ := (mem_updated_images _ after repo).1 hrepo
    have := hU d1 hin
    rw [hl] at this
    injection this with this
    exact hne this
  · intro hrepo hpin hpm hp
    have h1 : p ∈ st.pods.filter Pod.managed := List.mem_filter.mpr ⟨hpin, hpm⟩
    have h2 : p ∈ selectedPods st.pods (updated_images (registryDigestsMap before) after) := by
      refine List.mem_filter.mpr ⟨h1, ?_⟩
      rw [hp]
      simpa using hrepo
    exact List.mem_map_of_mem _ h2

theorem cou_dep_frame (st : ClusterState) (d : DeploymentSpec) :
    (create_or_update_deployment st d).2.services = st.services ∧
    (create_or_update_deployment st d).2.hpas = st.hpas ∧
    (create_or_update_deployment st d).2.pods = st.pods := by
  unfold create_or_update_deployment
  split <;> exact ⟨rfl, rfl, rfl⟩

theorem cou_svc_frame (st : ClusterState) (s : ServiceSpec) :
    (create_or_update_service st s).2.deployments = st.deployments ∧
    (create_or_update_service st s).2.hpas = st.hpas ∧
    (create_or_update_service st s).2.pods = st.pods := by
  unfold create_or_update_service
  split <;> exact ⟨rfl, rfl, rfl⟩

theorem cou_dep_names (st : ClusterState) (d : DeploymentSpec) :
    (create_or_update_deployment st d).2.deployments.map KObj.name
        = st.deployments.map KObj.name
    ∨ (create_or_update_deployment st d).2.deployments.map KObj.name
        = st.deployments.map KObj.name ++ [d.name] := by
  unfold create_or_update_deployment
  split <;> rename_i hcond
  · left
    rw [List.map_map]
    apply List.map_congr_left
    intro o ho
    by_cases hb : (o.name == d.name) = true
    · show KObj.name (if o.name == d.name then _ else o) = o.name
      rw [if_pos hb]
      exact (beq_iff_eq.mp hb).symm
    · show KObj.name (if o.name == d.name then _ else o) = o.name
      rw [if_neg hb]
  · right
    simp

theorem cou_svc_names (st : ClusterState) (s : ServiceSpec) :
    (create_or_update_service st s).2.services.map KObj.name
        = st.services.map KObj.name
    ∨ (create_or_update_service st s).2.services.map KObj.name
        = st.services.map KObj.name ++ [s.name] := by
  unfold create_or_update_service
  split <;> rename_i hcond
  · left
    rw [List.map_map]
    apply List.map_congr_left
    intro o ho
    by_cases hb : (o.name == s.name) = true
    · show KObj.name (if o.name == s.name then _ else o) = o.name
      rw [if_pos hb]
      exact (beq_iff_eq.mp hb).symm
    · show KObj.name (if o.name == s.name then _ else o) = o.name
      rw [if_neg hb]
  · right
    simp

theorem cou_dep_mem (st : ClusterState) (d : DeploymentSpec) :
    d.name ∈ (create_or_update_deployment st d).2.deployments.map KObj.name := by
  unfold create_or_update_deployment
  split <;> rename_i hcond
  · rw [List.any_eq_true] at hcond
    obtain ⟨o, ho, hbeq⟩ := hcond
    rw [List.map_map]
    refine List.mem_map.mpr ⟨o, ho, ?_⟩
    show KObj.name
      (if o.name == d.name then { name := d.name, labels := d.metadataLabels } else o)
        = d.name
    rw [if_pos hbeq]
  · simp

theorem cou_svc_mem (st : ClusterState) (s : ServiceSpec) :
    s.name ∈ (create_or_update_service st s).2.services.map KObj.name := by
  unfold create_or_update_service
  split <;> rename_i hcond
  · rw [List.any_eq_true] at hcond
    obtain ⟨o, ho, hbeq⟩ := hcond
    rw [List.map_map]
    refine List.mem_map.mpr ⟨o, ho, ?_⟩
    show KObj.name
      (if o.name == s.name then { name := s.name, labels := s.metadataLabels } else o)
        = s.name
    rw [if_pos hbeq]
  · simp

theorem cou_dep_present (st : ClusterState) (d : DeploymentSpec)
    (h : d.name ∈ st.deployments.map KObj.name) :
    (create_or_update_deployment st d).1 = [Event.replace .deployment d.name] ∧
    (create_or_update_deployment st d).2.deployments.map KObj.name
      = st.deployments.map KObj.name := by
  have hany : (st.deployments.any fun o => o.name == d.name) = true := by
    rw [List.any_eq_true]
    simp only [List.mem_map] at h
    obtain ⟨o, ho, hname⟩ := h
    exact ⟨o, ho, beq_iff_eq.mpr hname⟩
  have hev : (create_or_update_deployment st d).1 = [Event.replace .deployment d.name] := by
    unfold create_or_update_deployment
    rw [if_pos hany]
  refine ⟨hev, ?_⟩
  rcases cou_dep_names st d with hn | hn
  · exact hn
  · exfalso
    unfold create_or_update_deployment at hn
    rw [if_pos hany] at hn
    have hlen := congrArg List.length hn
    simp at hlen

theorem cou_svc_present (st : ClusterState) (s : ServiceSpec)
    (h : s.name ∈ st.services.map KObj.name) :
    (create_or_update_service st s).1 = [Event.replace .service s.name] ∧
    (create_or_update_service st s).2.services.map KObj.name
      = st.services.map KObj.name := by
  have hany : (st.services.any fun o => o.name == s.name) = true := by
    rw [List.any_eq_true]
    simp only [List.mem_map] at h
    obtain ⟨o, ho, hname⟩ := h
    exact ⟨o, ho, beq_iff_eq.mpr hname⟩
  have hev : (create_or_update_service st s).1 = [Event.replace .service s.name] := by
    unfold create_or_update_service
    rw [if_pos hany]
  refine ⟨hev, ?_⟩
  rcases cou_svc_names st s with hn | hn
  · exact hn
  · exfalso
    unfold create_or_update_service at hn
    rw [if_pos hany] at hn
    have hlen := congrArg List.length hn
    simp at hlen

theorem createLoop_state_hpas (cs : List Challenge) (st : ClusterState) :
    (createLoop cs st).state.hpas = st.hpas := by
  induction cs generalizing st with
  | nil => rfl
  | cons c cs ih =>
      cases h : c.hasDockerfile <;>
        simp [createLoop, h, ih, create_or_update_resource, cou_svc_frame, cou_dep_frame]

theorem createLoop_state_pods (cs : List Challenge) (st : ClusterState) :
    (createLoop cs st).state.pods = st.pods := by
  induction cs generalizing st with
  | nil => rfl
  | cons c cs ih =>
      cases h : c.hasDockerfile <;>
        simp [createLoop, h, ih, create_or_update_resource, cou_svc_frame, cou_dep_frame]

theorem createLoop_names_mono (cs : List Challenge) (st : ClusterState) (x : String) :
    (x ∈ st.deployments.map KObj.name →
      x ∈ (createLoop cs st).state.deployments.map KObj.name) ∧
    (x ∈ st.services.map KObj.name →
      x ∈ (createLoop cs st).state.services.map KObj.name) := by
  induction cs generalizing st with
  | nil => exact ⟨id, id⟩
  | cons c cs ih =>
      cases h : c.hasDockerfile
      · constructor
        · intro hx
          simpa [createLoop, h] using (ih st).1 hx
        · intro hx
          simpa [createLoop, h] using (ih st).2 hx
      · constructor
        · intro hx
          have hstep : x ∈ ((create_or_update_service
              (create_or_update_deployment st (mkDeployment c)).2
              (mkService c)).2).deployments.map KObj.name := by
            rw [(cou_svc_frame _ _).1]
            rcases cou_dep_names st (mkDeployment c) with hn | hn <;> rw [hn]
            · exact hx
            · exact List.mem_append.mpr (Or.inl hx)
          have := (ih _).1 hstep
          simpa [createLoop, h, create_or_update_resource] using this
        · intro hx
          have hstep : x ∈ ((create_or_update_service
              (create_or_update_deployment st (mkDeployment c)).2
              (mkService c)).2).services.map KObj.name := by
            rcases cou_svc_names
                (create_or_update_deployment st (mkDeployment c)).2 (mkService c) with
              hn | hn <;> rw [hn, (cou_dep_frame _ _).1]
            · exact hx
            · exact List.mem_append.mpr (Or.inl hx)
          have := (ih _).2 hstep
          simpa [createLoop, h, create_or_update_resource] using this

theorem createLoop_ids_present (cs : List Challenge) (st : ClusterState) (c : Challenge)
    (hc : c ∈ cs) (hd : c.hasDockerfile = true) :
    c.id ∈ (createLoop cs st).state.deployments.map KObj.name ∧
    c.id ∈ (createLoop cs st).state.services.map KObj.name := by
  revert hc
  induction cs generalizing st with
  | nil => intro hc; cases hc
  | cons c' cs ih =>
      intro hc
      rcases List.mem_cons.1 hc with rfl | hc'
      · cases h : c.hasDockerfile
        · rw [h] at hd; cases hd
        · constructor
          · have h1 : c.id ∈ ((create_or_update_service
                (create_or_update_deployment st (mkDeployment c)).2
                (mkService c)).2).deployments.map KObj.name := by
              rw [(cou_svc_frame _ _).1]
              exact cou_dep_mem st (mkDeployment c)
            have := (createLoop_names_mono cs _ c.id).1 h1
            simpa [createLoop, h, create_or_update_resource] using this
          · have h1 : c.id ∈ ((create_or_update_service
                (create_or_update_deployment st (mkDeployment c)).2
                (mkService c)).2).services.map KObj.name :=
              cou_svc_mem _ (mkService c)
            have := (createLoop_names_mono cs _ c.id).2 h1
            simpa [createLoop, h, create_or_update_resource] using this
      · cases h : c'.hasDockerfile
        · have := ih st hc'
          constructor
          · simpa [createLoop, h] using this.1
          · simpa [createLoop, h] using this.2
        · have := ih ((create_or_update_service
            (create_or_update_deployment st (mkDeployment c')).2
            (mkService c')).2) hc'
          constructor
          · simpa [createLoop, h, create_or_update_resource] using this.1
          · simpa [createLoop, h, create_or_update_resource] using this.2

theorem createLoop_all_present (cs : List Challenge) (st : ClusterState)
    (h : ∀ c ∈ cs, c.hasDockerfile = true →
      c.id ∈ st.deployments.map KObj.name ∧ c.id ∈ st.services.map KObj.name) :
    (∀ e ∈ (createLoop cs st).events, e.isReplace = true) ∧
    (createLoop cs st).state.deployments.map KObj.name
      = st.deployments.map KObj.name ∧
    (createLoop cs st).state.services.map KObj.name
      = st.services.map KObj.name := by
  induction cs generalizing st with
  | nil => exact ⟨by simp [createLoop], rfl, rfl⟩
  | cons c cs ih =>
      cases hdk : c.hasDockerfile
      · have htail : ∀ c' ∈ cs, c'.hasDockerfile = true →
            c'.id ∈ st.deployments.map KObj.name ∧
            c'.id ∈ st.services.map KObj.name :=
          fun c' hc' hd' => h c' (List.mem_cons_of_mem _ hc') hd'
        obtain ⟨ihev, ihD, ihS⟩ := ih st htail
        refine ⟨?_, ?_, ?_⟩
        · intro e he
          exact ihev e (by simpa [createLoop, hdk] using he)
        · simpa [createLoop, hdk] using ihD
        · simpa [createLoop, hdk] using ihS
      · have hc := h c (List.mem_cons_self _ _) hdk
        obtain ⟨hevD, hnD⟩ := cou_dep_present st (mkDeployment c) hc.1
        obtain ⟨hevS, hnS⟩ := cou_svc_present
          (create_or_update_deployment st (mkDeployment c)).2 (mkService c)
          (by rw [(cou_dep_frame st (mkDeployment c)).1]; exact hc.2)
        have hD2 : ((create_or_update_service
            (create_or_update_deployment st (mkDeployment c)).2
            (mkService c)).2).deployments.map KObj.name
              = st.deployments.map KObj.name := by
          rw [(cou_svc_frame _ _).1, hnD]
        have hS2 : ((create_or_update_service
            (create_or_update_deployment st (mkDeployment c)).2
            (mkService c)).2).services.map KObj.name
              = st.services.map KObj.name := by
          rw [hnS, (cou_dep_frame _ _).1]
        have htail : ∀ c' ∈ cs, c'.hasDockerfile = true →
            c'.id ∈ ((create_or_update_service
              (create_or_update_deployment st (mkDeployment c)).2
              (mkService c)).2).deployments.map KObj.name ∧
            c'.id ∈ ((create_or_update_service
              (create_or_update_deployment st (mkDeployment c)).2
              (mkService c)).2).services.map KObj.name := by
          intro c' hc' hd'
          rw [hD2, hS2]
          exact h c' (List.mem_cons_of_mem _ hc') hd'
        obtain ⟨ihev, ihD, ihS⟩ := ih _ htail
        have hevsplit : (createLoop (c :: cs) st).events
            = (create_or_update_deployment st (mkDeployment c)).1
              ++ ((create_or_update_service
                    (create_or_update_deployment st (mkDeployment c)).2
                    (mkService c)).1
                ++ (createLoop cs ((create_or_update_service
                    (create_or_update_deployment st (mkDeployment c)).2
                    (mkService c)).2)).events) := by
          simp [createLoop, hdk, create_or_update_resource]
        refine ⟨?_, ?_, ?_⟩
        · intro e he
          rw [hevsplit, hevD, hevS] at he
          simp only [List.mem_append, List.mem_singleton] at he
          rcases he with he | he | he
          · subst he
            rfl
          · subst he
            rfl
          · exact ihev e he
        · have : (createLoop (c :: cs) st).state.deployments.map KObj.name
              = (createLoop cs ((create_or_update_service
                (create_or_update_deployment st (mkDeployment c)).2
                (mkService c)).2)).state.deployments.map KObj.name := by
            simp [createLoop, hdk, create_or_update_resource]
          rw [this, ihD, hD2]
        · have : (createLoop (c :: cs) st).state.services.map KObj.name
              = (createLoop cs ((create_or_update_service
                (create_or_update_deployment st (mkDeployment c)).2
                (mkService c)).2)).state.services.map KObj.name := by
            simp [createLoop, hdk, create_or_update_resource]
          rw [this, ihS, hS2]

theorem contains_iff_mem {α : Type} [BEq α] [LawfulBEq α] (l : List α) (x : α) :
    l.contains x = true ↔ x ∈ l := List.elem_iff

theorem confirmAndDelete_empty (k : Kind) (a : String) :
    confirmAndDelete k [] a = ([], []) := rfl

theorem confirmAndDelete_snd_sub (k : Kind) (b : List String) (a : String) :
    ∀ n ∈ (confirmAndDelete k b a).2, n ∈ b := by
  unfold confirmAndDelete
  split
  · split
    · intro n hn
      exact hn
    · intro n hn
      exact absurd hn (List.not_mem_nil n)
  · intro n hn
    exact absurd hn (List.not_mem_nil n)

theorem confirmAndDelete_snd_approved (k : Kind) (b : List String) (a : String)
    (hb : b ≠ []) (hy : pyLower a = "y") : (confirmAndDelete k b a).2 = b := by
  unfold confirmAndDelete
  rw [if_pos (List.length_pos.mpr hb), if_pos (beq_iff_eq.mpr hy)]

theorem confirmAndDelete_denied_no_mut (k : Kind) (b : List String) (a : String)
    (hy : pyLower a ≠ "y") :
    ∀ e ∈ (confirmAndDelete k b a).1, e.isMutation = false := by
  unfold confirmAndDelete
  split
  · rw [if_neg (fun hc => hy (beq_iff_eq.mp hc))]
    intro e he
    simp only [List.mem_singleton] at he
    subst he
    rfl
  · intro e he
    exact absurd he (List.not_mem_nil e)

theorem hpaDeletionPass_no_mut (b : List String) (a : String) :
    ∀ e ∈ (hpaDeletionPass b a).1, e.isMutation = false := by
  intro e he
  have hsh := hpaDeletionPass_events_shape b a e he
  subst hsh
  rfl

theorem toDeleteBatch_nil (l : List String) : toDeleteBatch l [] = l := by
  simp [toDeleteBatch]

theorem keep_of_mem_ids (objs : List KObj) (ids : List String) (a : String) (k : Kind)
    (o : KObj) (hido : o.name ∈ ids) :
    (!(confirmAndDelete k (toDeleteBatch (objs.map KObj.name) ids) a).2.contains o.name)
      = true := by
  have hnot : (confirmAndDelete k (toDeleteBatch (objs.map KObj.name) ids) a).2.contains
      o.name = false := by
    cases hv : (confirmAndDelete k (toDeleteBatch (objs.map KObj.name) ids) a).2.contains
        o.name
    · rfl
    · exfalso
      have hmemdel := (contains_iff_mem _ _).mp hv
      have hmemb := confirmAndDelete_snd_sub _ _ _ _ hmemdel
      have hcond := (List.mem_filter.mp hmemb).2
      rw [(contains_iff_mem _ _).mpr hido] at hcond
      cases hcond
  rw [hnot]
  rfl

theorem mem_toDeleteBatch (l ids : List String) (n : String) :
    n ∈ toDeleteBatch l ids ↔ n ∈ l ∧ n ∉ ids := by
  unfold toDeleteBatch
  rw [List.mem_filter, Bool.not_eq_true']
  constructor
  · rintro ⟨hl, h2⟩
    refine ⟨hl, fun hmem => ?_⟩
    rw [(contains_iff_mem _ _).mpr hmem] at h2
    cases h2
  · rintro ⟨hl, h2⟩
    refine ⟨hl, ?_⟩
    cases hv : ids.contains n
    · rfl
    · exact absurd ((contains_iff_mem _ _).mp hv) h2

theorem batch2_empty_of_approved (objs : List KObj) (ids : List String) (a : String)
    (k : Kind) (hy : pyLower a = "y") :
    toDeleteBatch ((objs.filter (fun o =>
      !((confirmAndDelete k (toDeleteBatch (objs.map KObj.name) ids) a).2.contains
        o.name))).map KObj.name) ids = [] := by
  rw [List.eq_nil_iff_forall_not_mem]
  intro n hn
  rw [mem_toDeleteBatch] at hn
  obtain ⟨hn1, hn2⟩ := hn
  simp only [List.mem_map, List.mem_filter] at hn1
  obtain ⟨o, ⟨ho, hkeep⟩, rfl⟩ := hn1
  have hb1 : o.name ∈ toDeleteBatch (objs.map KObj.name) ids :=
    (mem_toDeleteBatch _ _ _).mpr ⟨List.mem_map_of_mem _ ho, hn2⟩
  have hne : toDeleteBatch (objs.map KObj.name) ids ≠ [] := by
    intro h0
    rw [h0] at hb1
    exact absurd hb1 (List.not_mem_nil _)
  have hdel := confirmAndDelete_snd_approved k _ a hne hy
  rw [hdel, (contains_iff_mem _ _).mpr hb1] at hkeep
  cases hkeep

theorem reconcile_components (ch : List Challenge) (ans : Answers) (st : ClusterState) :
    (reconcile ch ans st).state.deployments
      = (createLoop ch st).state.deployments.filter (fun o =>
          !((confirmAndDelete .deployment
              (toDeleteBatch ((createLoop ch st).state.deployments.map KObj.name)
                ((createLoop ch st).deployed_deployments.map Challenge.id))
              ans.deployments).2.contains o.name)) ∧
    (reconcile ch ans st).state.services
      = (createLoop ch st).state.services.filter (fun o =>
          !((confirmAndDelete .service
              (toDeleteBatch ((createLoop ch st).state.services.map KObj.name)
                ((createLoop ch st).deployed_services.map Challenge.id))
              ans.services).2.contains o.name)) ∧
    (reconcile ch ans st).state.hpas = (createLoop ch st).state.hpas ∧
    (reconcile ch ans st).state.pods = (createLoop ch st).state.pods ∧
    (reconcile ch ans st).error
      = (hpaDeletionPass
          (toDeleteBatch ((createLoop ch st).state.hpas.map KObj.name)
            ((createLoop ch st).deployed_hpas.map Challenge.id)) ans.hpas).2 ∧
    (reconcile ch ans st).events
      = (createLoop ch st).events
        ++ ((confirmAndDelete .deployment
              (toDeleteBatch ((createLoop ch st).state.deployments.map KObj.name)
                ((createLoop ch st).deployed_deployments.map Challenge.id))
              ans.deployments).1
          ++ (confirmAndDelete .service
              (toDeleteBatch ((createLoop ch st).state.services.map KObj.name)
                ((createLoop ch st).deployed_services.map Challenge.id))
              ans.services).1
          ++ (hpaDeletionPass
              (toDeleteBatch ((createLoop ch st).state.hpas.map KObj.name)
                ((createLoop ch st).deployed_hpas.map Challenge.id)) ans.hpas).1) :=
  ⟨rfl, rfl, rfl, rfl, rfl, rfl⟩

/-- C6 witness. -/
theorem C6_digest_driven_restart_witness :
    "p1" ∈ pods_to_delete staleCluster.pods
      (updated_images (registryDigestsMap [(REGISTRY ++ "web-c", "sha-A")])
        [(REGISTRY ++ "web-c", "sha-B")]) :=
  (C6_digest_driven_restart [(REGISTRY ++ "web-c", "sha-A")]
    [(REGISTRY ++ "web-c", "sha-B")] (REGISTRY ++ "web-c") staleCluster
    { name := "p1", labels := [(MANAGED_LABEL_KEY, MANAGED_LABEL_VALUE)]
      firstContainerImage := REGISTRY ++ "web-c", otherContainerImages := [] }).2.2
    (by decide) (by decide) (by decide) (by decide)

/-- Claim C2, amended: With building disabled, if a first reconciliation run
terminates without error, a second run over the resulting cluster with the
same desired set and the same answers issues zero create, zero delete and zero
pod-restart calls — every Kubernetes mutation call of the second run is a
replace (replace-with-identical-spec), so the mutation count is not zero — and
the second run also terminates without error. -/
theorem C2_second_run_idempotent (ch : List Challenge) (ans : Answers)
    (st : ClusterState)
    (h1 : (main ch false false [] [] ans st).error = none) :
    (((main ch false false [] [] ans
          (main ch false false [] [] ans st).state).events.filter
        Event.isMutation).all Event.isReplace = true) ∧
    (main ch false false [] [] ans
        (main ch false false [] [] ans st).state).error = none := by
  have hmS : (main ch false false [] [] ans st).state = (reconcile ch ans st).state := rfl
  have hmE2 : (main ch false false [] [] ans (reconcile ch ans st).state).events
      = (reconcile ch ans (reconcile ch ans st).state).events := rfl
  have hmErr2 : (main ch false false [] [] ans (reconcile ch ans st).state).error
      = (reconcile ch ans (reconcile ch ans st).state).error := rfl
  have herr1 : (reconcile ch ans st).error = none := h1
  rw [hmS, hmE2, hmErr2]
  have hpres : ∀ c ∈ ch, c.hasDockerfile = true →
      c.id ∈ (reconcile ch ans st).state.deployments.map KObj.name ∧
      c.id ∈ (reconcile ch ans st).state.services.map KObj.name := by
    intro c hc hd
    have hidmem : c.id ∈ (createLoop ch st).deployed_deployments.map Challenge.id := by
      rw [createLoop_deployed_deployments]
      exact List.mem_map_of_mem _ (List.mem_filter.mpr ⟨hc, hd⟩)
    have hidmemS : c.id ∈ (createLoop ch st).deployed_services.map Challenge.id := by
      rw [createLoop_deployed_services]
      exact List.mem_map_of_mem _ (List.mem_filter.mpr ⟨hc, hd⟩)
    constructor
    · rw [(reconcile_components ch ans st).1]
      have hmem := (createLoop_ids_present ch st c hc hd).1
      simp only [List.mem_map] at hmem ⊢
      obtain ⟨o, ho, honame⟩ := hmem
      refine ⟨o, List.mem_filter.mpr ⟨ho, ?_⟩, honame⟩
      have hid : o.name ∈ (createLoop ch st).deployed_deployments.map Challenge.id := by
        rw [show o.name = KObj.name o from rfl, honame]
        exact hidmem
      exact keep_of_mem_ids _ _ _ _ o hid
    · rw [(reconcile_components ch ans st).2.1]
      have hmem := (createLoop_ids_present ch st c hc hd).2
      simp only [List.mem_map] at hmem ⊢
      obtain ⟨o, ho, honame⟩ := hmem
      refine ⟨o, List.mem_filter.mpr ⟨ho, ?_⟩, honame⟩
      have hid : o.name ∈ (createLoop ch st).deployed_services.map Challenge.id := by
        rw [show o.name = KObj.name o from rfl, honame]
        exact hidmemS
      exact keep_of_mem_ids _ _ _ _ o hid
  obtain ⟨hrep2, hnmD2, hnmS2⟩ :=
    createLoop_all_present ch (reconcile ch ans st).state hpres
  have hidsD2 : (createLoop ch
        (reconcile ch ans st).state).deployed_deployments.map Challenge.id
      = (createLoop ch st).deployed_deployments.map Challenge.id := by
    rw [createLoop_deployed_deployments, createLoop_deployed_deployments]
  have hidsS2 : (createLoop ch
        (reconcile ch ans st).state).deployed_services.map Challenge.id
      = (createLoop ch st).deployed_services.map Challenge.id := by
    rw [createLoop_deployed_services, createLoop_deployed_services]
  have herr2 : (reconcile ch ans (reconcile ch ans st).state).error = none := by
    have e1 := herr1
    rw [(reconcile_components ch ans st).2.2.2.2.1] at e1
    simp only [createLoop_deployed_hpas, List.map_nil, createLoop_state_hpas] at e1
    rw [(reconcile_components ch ans (reconcile ch ans st).state).2.2.2.2.1]
    simp only [createLoop_deployed_hpas, List.map_nil, createLoop_state_hpas,
      (reconcile_components ch ans st).2.2.1]
    exact e1
  refine ⟨?_, herr2⟩
  rw [List.all_eq_true]
  intro e he
  rw [List.mem_filter] at he
  obtain ⟨hev, hmut⟩ := he
  rw [(reconcile_components ch ans (reconcile ch ans st).state).2.2.2.2.2] at hev
  simp only [List.mem_append] at hev
  rcases hev with hev | (hev | hev) | hev
  · exact hrep2 e hev
  · by_cases hyd : pyLower ans.deployments = "y"
    · exfalso
      have hb2 : toDeleteBatch
          ((createLoop ch
            (reconcile ch ans st).state).state.deployments.map KObj.name)
          ((createLoop ch
            (reconcile ch ans st).state).deployed_deployments.map Challenge.id)
          = [] := by
        rw [hnmD2, hidsD2, (reconcile_components ch ans st).1]
        exact batch2_empty_of_approved _ _ _ _ hyd
      rw [hb2, confirmAndDelete_empty] at hev
      exact absurd hev (List.not_mem_nil e)
    · have hno := confirmAndDelete_denied_no_mut _ _ _ hyd e hev
      rw [hno] at hmut
      cases hmut
  · by_cases hys : pyLower ans.services = "y"
    · exfalso
      have hb2 : toDeleteBatch
          ((createLoop ch
            (reconcile ch ans st).state).state.services.map KObj.name)
          ((createLoop ch
            (reconcile ch ans st).state).deployed_services.map Challenge.id)
          = [] := by
        rw [hnmS2, hidsS2, (reconcile_components ch ans st).2.1]
        exact batch2_empty_of_approved _ _ _ _ hys
      rw [hb2, confirmAndDelete_empty] at hev
      exact absurd hev (List.not_mem_nil e)
    · have hno := confirmAndDelete_denied_no_mut _ _ _ hys e hev
      rw [hno] at hmut
      cases hmut
  · have hno := hpaDeletionPass_no_mut _ _ e hev
    rw [hno] at hmut
    cases hmut

/-- Claim C2, amended, witness: -/
theorem C2_second_run_idempotent_witness :
    ((main [sampleChallenge] false false [] [] allNoAnswers
        (main [sampleChallenge] false false [] [] allNoAnswers emptyCluster).state).events.filter
      Event.isMutation).all Event.isReplace = true :=
  (C2_second_run_idempotent [sampleChallenge] allNoAnswers emptyCluster (by decide)).1

end KubeDeployer
